import Mathlib

/-!
Shallow embedding of the error-chain library core (src/src/lib.rs):
the chained-error data model, the error-chain iterator, chain rendering,
state construction, and the propagation macros `bail!` / `ensure!`.
Code generated by the `error_chain!` macro (family Error/ErrorKind types,
`From` conversions, accessors) and the backtrace module are not present in
the source tree; those parts are modelled from the specification and marked
as such in their doc comments.
-/

namespace ErrorChain

/-- A captured call-stack snapshot. Its identity is modelled by a numeric
tag (standing for the allocation identity of the Rust `Backtrace`), and
`fmtDebug` is its debug-formatted text as printed by `writeln!("{:?}", bt)`. -/
structure Backtrace where
  tag : Nat
  fmtDebug : String
deriving Repr, DecidableEq

/-- Modelled from the spec (backtrace module not under src): the internal
backtrace capsule is either a captured snapshot or absent (capture disabled). -/
abbrev InternalBacktrace := Option Backtrace

/-- The ambient capture configuration: whether `RUST_BACKTRACE` enables
capture, and the snapshot that a fresh capture at this point would produce. -/
structure CaptureCtx where
  enabled : Bool
  freshSnapshot : Backtrace
deriving Repr, DecidableEq

/-- Modelled from the spec (backtrace module not under src): `capture()`
returns `Disabled` (none) if capture is turned off, otherwise a fresh
`Captured` snapshot. -/
def InternalBacktrace.new (ctx : CaptureCtx) : InternalBacktrace :=
  if ctx.enabled then some ctx.freshSnapshot else none

/-- Model of a `Box<dyn error::Error + Send + 'static>` trait object: the
minimal error capability (description, display, optional cause) together
with what `ChainedError::extract_backtrace` returns when applied to it
(some internal capsule for errors of the family or extractable foreign
errors, none otherwise). -/
inductive DynError : Type where
  | mk (description : String) (display : String) (cause : Option DynError)
      (extractedBacktrace : Option InternalBacktrace)

/-- Model of `Error::description()` of the trait object. -/
def DynError.description : DynError → String
  | .mk d _ _ _ => d

/-- Model of the `Display` rendering of the trait object. -/
def DynError.display : DynError → String
  | .mk _ s _ _ => s

/-- Model of `Error::cause()` of the trait object. -/
def DynError.cause : DynError → Option DynError
  | .mk _ _ c _ => c

/-- What `ChainedError::extract_backtrace` returns on this trait object. -/
def DynError.extractedBacktrace : DynError → Option InternalBacktrace
  | .mk _ _ _ b => b

/-- Length of the cause chain starting at this error (itself included). -/
def DynError.chainLen : DynError → Nat
  | .mk _ _ none _ => 1
  | .mk _ _ (some c) _ => c.chainLen + 1

/-- Embeds `Iter` over `Option` of an error reference (src/src/lib.rs line 559). -/
structure Iter where
  cur : Option DynError

/-- Embeds `Iter::new` (src/src/lib.rs lines 563-565). -/
def Iter.new (err : Option DynError) : Iter := ⟨err⟩

/-- Embeds `Iter::next` (src/src/lib.rs lines 571-579): `self.0.take()`; on `Some e`
set the state to `e.cause()` and yield `e`; on `None` yield nothing (the
state is left at `None` by `take`). -/
def Iter.next (it : Iter) : Option DynError × Iter :=
  match it.cur with
  | some e => (some e, ⟨e.cause⟩)
  | none => (none, ⟨none⟩)

/-- The full sequence of elements the iterator yields from a given state:
each element followed by its cause, until no cause remains. -/
def iterList : Option DynError → List DynError
  | none => []
  | some (.mk d s c b) => .mk d s c b :: iterList c

/-- Run the iterator for `n` calls to `next`, recording each yielded value. -/
def Iter.stepN : Nat → Iter → List (Option DynError) × Iter
  | 0, it => ([], it)
  | n + 1, it =>
    let (r, it') := it.next
    let (rs, it'') := Iter.stepN n it'
    (r :: rs, it'')

theorem iterList_some (d s : String) (c : Option DynError)
    (b : Option InternalBacktrace) :
    iterList (some (.mk d s c b)) = .mk d s c b :: iterList c := by
  simp [iterList]

/-- The trace of the iterator unfolds by one `next` call. -/
theorem iterList_eq_next (o : Option DynError) :
    iterList o =
      match Iter.next ⟨o⟩ with
      | (some e, it') => e :: iterList it'.cur
      | (none, _) => [] := by
  cases o with
  | none => simp [iterList, Iter.next]
  | some e => cases e with
    | mk d s c b => simp [iterList, Iter.next, DynError.cause]

/-- Embeds `State` (src/src/lib.rs lines 665-670): common state between errors —
the next error in the chain and the backtrace for the current error. -/
structure State where
  next_error : Option DynError
  backtrace : InternalBacktrace

/-- Embeds `impl Default for State` with the backtrace feature (src/src/lib.rs
lines 672-680): no next error, a freshly resolved backtrace capsule. -/
def State.default (ctx : CaptureCtx) : State :=
  { next_error := none, backtrace := InternalBacktrace.new ctx }

/-- Embeds `State::new` (src/src/lib.rs lines 686-693): the backtrace is
`CE::extract_backtrace(&*e).unwrap_or_else(InternalBacktrace::new)` and the
boxed error becomes the next error of the chain. -/
def State.new (ctx : CaptureCtx) (e : DynError) : State :=
  { next_error := some e
    backtrace := e.extractedBacktrace.getD (InternalBacktrace.new ctx) }

/-- The textual contract of a family's generated `ErrorKind`: the
`description()` and `Display` of each kind value. -/
structure KindSig (K : Type) where
  description : K → String
  display : K → String

/-- Modelled from the spec (generated `Error` struct not under src):
`Error(ErrorKind, State)` — a kind plus the common state. -/
structure FError (K : Type) where
  kind : K
  state : State

/-- Modelled from the spec (generated impls not under src): the family
error viewed as a `dyn error::Error` trait object — `description()` and
`Display` delegate to the kind, `cause()` returns the next error of the
state, and `extract_backtrace` on a family error recovers its state's
backtrace capsule. -/
def FError.toDyn (sig : KindSig K) (e : FError K) : DynError :=
  .mk (sig.description e.kind) (sig.display e.kind) e.state.next_error
    (some e.state.backtrace)

/-- Modelled from the spec (generated impl not under src): `from_kind`
wraps the kind with the default state — no predecessor, fresh capsule. -/
def FError.from_kind (ctx : CaptureCtx) (k : K) : FError K :=
  ⟨k, State.default ctx⟩

/-- Modelled from the spec (generated impl not under src): `with_chain`
builds the error from the converted kind and `State::new` of the boxed
predecessor. -/
def FError.with_chain (ctx : CaptureCtx) (err : DynError) (k : K) :
    FError K :=
  ⟨k, State.new ctx err⟩

/-- Modelled from the spec (generated impl not under src): `chain_err`
evaluates the closure and behaves as `with_chain(self, produced_kind)`. -/
def FError.chain_err (sig : KindSig K) (ctx : CaptureCtx) (e : FError K)
    (f : Unit → K) : FError K :=
  FError.with_chain ctx (e.toDyn sig) (f ())

/-- Modelled from the spec (generated impl not under src): `iter` returns
the §4.2 iterator seeded at self; this is the iterator object. -/
def FError.iterStart (sig : KindSig K) (e : FError K) : Iter :=
  Iter.new (some (e.toDyn sig))

/-- The sequence of errors the chain iterator seeded at this family error
yields: the error itself, then its causes in order. -/
def FError.iterSeq (sig : KindSig K) (e : FError K) : List DynError :=
  iterList (some (e.toDyn sig))

/-- Modelled from the spec (generated impl not under src): `backtrace()`
returns the resolved backtrace of the state, or none if disabled. -/
def FError.backtraceAcc (e : FError K) : Option Backtrace :=
  e.state.backtrace

/-- The text emitted by the `for e in self.0.iter().skip(1)` loop of
`DisplayChain::fmt` (src/src/lib.rs lines 650-652): one
`writeln!("Caused by: {}", e)` per remaining chain element, in order. -/
def causedByLines : List DynError → String
  | [] => ""
  | e :: rest => "Caused by: " ++ e.display ++ "\n" ++ causedByLines rest

/-- Embeds `DisplayChain::fmt` (src/src/lib.rs lines 646-659): first
`writeln!("Error: {}", self.0)`, then one `Caused by:` line per element of
`iter().skip(1)`, then `writeln!("{:?}", backtrace)` when a backtrace is
present. -/
def FError.displayChain (sig : KindSig K) (e : FError K) : String :=
  "Error: " ++ sig.display e.kind ++ "\n"
    ++ causedByLines ((e.iterSeq sig).drop 1)
    ++ match e.backtraceAcc with
      | some b => b.fmtDebug ++ "\n"
      | none => ""

/-- Modelled from the spec (generated `From` impl not under src): linking
a regular-link family's error folds its kind into the wrapping variant and
carries the state over unchanged — no predecessor introduced, no capture. -/
def linkFrom (wrap : KB → KA) (e : FError KB) : FError KA :=
  ⟨wrap e.kind, e.state⟩

/-- Modelled from the spec (generated `From` impl not under src):
converting a foreign error boxes it as the predecessor via `State::new`
under the foreign-link wrapping kind. -/
def foreignFrom (ctx : CaptureCtx) (wrapKind : KA) (f : DynError) :
    FError KA :=
  ⟨wrapKind, State.new ctx f⟩

/-- Concatenation of a list of lines, each terminated by a newline. -/
def linesJoin : List String → String
  | [] => ""
  | s :: rest => s ++ "\n" ++ linesJoin rest

/-- Embeds the single-expression form of the bail macro (src/src/lib.rs lines 764-766): unconditionally
`return Err(expr.into())` from the enclosing fallible function. -/
def bail (into : α → E) (e : α) : Except E T :=
  .error (into e)

/-- Rust `format!` modelled on string arguments: each `\x7b\x7d`
placeholder is replaced by the next argument in order. -/
def formatChars : List Char → List String → List Char
  | [], _ => []
  | '\x7b' :: '\x7d' :: rest, a :: args => a.data ++ formatChars rest args
  | '\x7b' :: '\x7d' :: rest, [] => formatChars rest []
  | c :: rest, args => c :: formatChars rest args

/-- Rust `format!(fmt, args...)` on string arguments. -/
def formatStr (fmt : String) (args : List String) : String :=
  ⟨formatChars fmt.data args⟩

/-- Embeds the format-string form of the bail macro (src/src/lib.rs lines 767-769):
`return Err(format!(fmt, args).into())`. -/
def bailFmt (intoS : String → E) (fmt : String) (args : List String) :
    Except E T :=
  .error (intoS (formatStr fmt args))

/-- Embeds the two-argument form of the ensure macro (src/src/lib.rs lines 796-800): if the condition
fails, `bail!(expr)`; otherwise continue (no effect). -/
def ensure (into : α → E) (cond : Bool) (e : α) : Except E Unit :=
  if !cond then bail into e else .ok ()

/-- Embeds the format-string form of the ensure macro (src/src/lib.rs lines 801-805): if the
condition fails, `bail!(fmt, args...)`; otherwise continue. -/
def ensureFmt (intoS : String → E) (cond : Bool) (fmt : String)
    (args : List String) : Except E Unit :=
  if !cond then bailFmt intoS fmt args else .ok ()

/-- Modelled from the spec (generated kind not under src): the synthesized
catch-all message variant holding an arbitrary string. -/
inductive MsgKind : Type where
  | msg (s : String)
deriving Repr, DecidableEq

/-- Modelled from the spec: the message variant's description is the
carried string. -/
def MsgKind.descriptionOf : MsgKind → String
  | .msg s => s

/-- Modelled from the spec: the message variant displays the carried
string. -/
def MsgKind.displayOf : MsgKind → String
  | .msg s => s

/-- The kind signature of a family consisting of the message variant. -/
def msgSig : KindSig MsgKind :=
  ⟨MsgKind.descriptionOf, MsgKind.displayOf⟩

/-- Modelled from the spec (generated `From<String> for Error` not under
src): a string converts to the family error via `from_kind(Msg(s))`. -/
def errorFromString (ctx : CaptureCtx) (s : String) : FError MsgKind :=
  FError.from_kind ctx (.msg s)

theorem FError.iterSeq_eq (sig : KindSig K) (e : FError K) :
    e.iterSeq sig = e.toDyn sig :: iterList e.state.next_error := by
  unfold FError.iterSeq FError.toDyn
  rw [iterList_some]

theorem FError.iterSeq_length (sig : KindSig K) (e : FError K) :
    (e.iterSeq sig).length = (iterList e.state.next_error).length + 1 := by
  rw [FError.iterSeq_eq]
  simp

/-- After the iterator state has been exhausted, every further call yields
nothing and leaves the state exhausted. -/
theorem Iter.stepN_none (n : Nat) :
    Iter.stepN n (Iter.new none) = (List.replicate n none, Iter.new none) := by
  induction n with
  | zero => rfl
  | succ n ih =>
    simp only [Iter.new] at ih
    simp [Iter.stepN, Iter.next, Iter.new, List.replicate, ih]

/-- Along the yielded sequence, the residual chain length strictly
decreases at every step. -/
theorem iterList_chainLen_chain :
    ∀ o : Option DynError,
      List.Chain' (fun a b => DynError.chainLen b < DynError.chainLen a)
        (iterList o)
  | none => by simp [iterList]
  | some (.mk d s none b) => by
    rw [iterList_some]
    simp [iterList]
  | some (.mk d s (some (.mk d' s' c' b')) b) => by
    have ih := iterList_chainLen_chain (some (.mk d' s' c' b'))
    rw [iterList_some] at ih
    rw [iterList_some, iterList_some]
    exact List.Chain'.cons (by simp [DynError.chainLen]) ih

/-- No position of the chain is yielded twice: all yielded elements have
pairwise distinct residual chain lengths, hence are pairwise distinct. -/
theorem iterList_pairwise_ne (o : Option DynError) :
    List.Pairwise (fun a b => a ≠ b) (iterList o) := by
  have h := iterList_chainLen_chain o
  haveI : IsTrans DynError (fun a b => DynError.chainLen b < DynError.chainLen a) :=
    ⟨fun _ _ _ h1 h2 => Nat.lt_trans h2 h1⟩
  have hp := List.chain'_iff_pairwise.mp h
  exact hp.imp (fun {a b} hlt heq => by subst heq; exact Nat.lt_irrefl _ hlt)

theorem causedByLines_eq_linesJoin (l : List DynError) :
    causedByLines l
      = linesJoin (l.map fun c => "Caused by: " ++ c.display) := by
  induction l with
  | nil => rfl
  | cons x rest ih => simp [causedByLines, linesJoin, ih]

theorem linesJoin_append (l₁ l₂ : List String) :
    linesJoin (l₁ ++ l₂) = linesJoin l₁ ++ linesJoin l₂ := by
  induction l₁ with
  | nil => simp [linesJoin]
  | cons s rest ih => simp [linesJoin, ih, String.append_assoc]

/-- A concrete leaf error with no cause, used to instantiate theorems. -/
def sampleLeaf : DynError := .mk "leaf description" "leaf display" none none

/-- A concrete two-element chain, used to instantiate theorems. -/
def sampleOuter : DynError :=
  .mk "outer description" "outer display" (some sampleLeaf) none

/-- A concrete capture configuration with capture enabled. -/
def sampleCtx : CaptureCtx := ⟨true, ⟨7, "stack backtrace: frame 0"⟩⟩

/-- C1: the error-chain iterator seeded at `Some(e)` yields `e` itself
first and advances its state to `e.cause()`; the state after yielding `e`
is exhausted exactly when `e.cause()` is absent, so the traversal from `e`
is `e` followed by the traversal of its cause; seeded at `None` the
iterator yields nothing at all. -/
theorem iter_next_yields_then_cause :
    (∀ e : DynError,
      Iter.next (Iter.new (some e)) = (some e, Iter.new e.cause))
    ∧ Iter.next (Iter.new none) = ((none : Option DynError), Iter.new none)
    ∧ (∀ e : DynError,
      ((Iter.next (Iter.new (some e))).2.cur = none ↔ e.cause = none))
    ∧ (∀ e : DynError, iterList (some e) = e :: iterList e.cause)
    ∧ iterList (none : Option DynError) = [] := by
  refine ⟨fun e => rfl, rfl, fun e => Iff.rfl, fun e => ?_, by simp [iterList]⟩
  cases e with
  | mk d s c b =>
    rw [iterList_some]
    rfl

/-- Witness for C1 on a concrete two-element chain. -/
theorem iter_next_yields_then_cause_witness :
    Iter.next (Iter.new (some sampleOuter))
      = (some sampleOuter, Iter.new (some sampleLeaf))
    ∧ ((Iter.next (Iter.new (some sampleOuter))).2.cur = none
      ↔ sampleOuter.cause = none)
    ∧ iterList (some sampleLeaf) = [sampleLeaf] := by
  refine ⟨?_, iter_next_yields_then_cause.2.2.1 sampleOuter, ?_⟩
  · exact iter_next_yields_then_cause.1 sampleOuter
  · have h := iter_next_yields_then_cause.2.2.2.1 sampleLeaf
    rw [h]
    simp [sampleLeaf, DynError.cause, iterList]

/-- C9: the iterator is forward-only and non-restartable — an exhausted
iterator yields `None` on every subsequent call and stays exhausted; each
successful `next` consumes the held reference, replacing it with the
cause; a `None` yield leaves the state exhausted; and no chain position is
ever yielded twice (all yielded elements are pairwise distinct). -/
theorem iter_forward_only :
    (∀ n : Nat, (Iter.stepN n (Iter.new none)).1 = List.replicate n none)
    ∧ (∀ (it : Iter) (e : DynError) (it' : Iter),
      Iter.next it = (some e, it') → it'.cur = e.cause)
    ∧ (∀ it it' : Iter, Iter.next it = (none, it') → it' = Iter.new none)
    ∧ (∀ o : Option DynError,
      List.Pairwise (fun a b => a ≠ b) (iterList o)) := by
  refine ⟨fun n => by rw [Iter.stepN_none], ?_, ?_, iterList_pairwise_ne⟩
  · intro it e it' h
    cases it with
    | mk cur =>
      cases cur with
      | none => simp [Iter.next] at h
      | some x =>
        have h' : (some x, (⟨x.cause⟩ : Iter)) = (some e, it') := h
        have hx : x = e := Option.some.inj (congrArg Prod.fst h')
        have hit : it' = ⟨x.cause⟩ := (congrArg Prod.snd h').symm
        subst hx
        rw [hit]
  · intro it it' h
    cases it with
    | mk cur =>
      cases cur with
      | none =>
        have h' : ((none : Option DynError), (⟨none⟩ : Iter)) = (none, it') := h
        exact (congrArg Prod.snd h').symm
      | some x => simp [Iter.next] at h

/-- Witness for C9 at concrete inputs: three exhausted calls all yield
nothing, a successful `next` on the concrete chain leaves the cause as the
new state, a `None` yield leaves the exhausted state, and the concrete
chain's yielded elements are pairwise distinct. -/
theorem iter_forward_only_witness :
    (Iter.stepN 3 (Iter.new none)).1 = List.replicate 3 none
    ∧ (Iter.new (some sampleLeaf)).cur = sampleOuter.cause
    ∧ Iter.new (none : Option DynError) = Iter.new none
    ∧ List.Pairwise (fun a b => a ≠ b) (iterList (some sampleOuter)) := by
  refine ⟨iter_forward_only.1 3, ?_, ?_, iter_forward_only.2.2.2 (some sampleOuter)⟩
  · exact iter_forward_only.2.1 (Iter.new (some sampleOuter)) sampleOuter
      (Iter.new (some sampleLeaf)) rfl
  · exact iter_forward_only.2.2.1 (Iter.new none) (Iter.new none) rfl

/-- C6: for every kind `K`, `from_kind(K).kind()` is structurally equal to
`K` — the kind is stored unchanged and the accessor returns it without
modification; both are total. -/
theorem from_kind_preserves_kind :
    ∀ (K : Type) (ctx : CaptureCtx) (k : K),
      (FError.from_kind ctx k).kind = k :=
  fun _ _ _ => rfl

/-- C4: `ensure(cond, expr)` is observationally `if not cond then
bail(expr)`: on a false condition it produces exactly the early return of
`bail` (any continuation is skipped, the same converted error results,
also in the format-string form); on a true condition it is a no-op and the
continuation runs. -/
theorem ensure_is_conditional_bail :
    ∀ (α E β : Type) (into : α → E) (cond : Bool) (e : α)
      (intoS : String → E) (fmt : String) (args : List String)
      (rest : Unit → Except E β),
      ensure into cond e = (if !cond then bail into e else .ok ())
      ∧ ensure into false e = bail into e
      ∧ ensure into true e = .ok ()
      ∧ (ensure into true e).bind rest = rest ()
      ∧ (ensure into false e).bind rest = (bail into e : Except E Unit).bind rest
      ∧ (ensure into false e).bind rest = .error (into e)
      ∧ ensureFmt intoS false fmt args = bailFmt intoS fmt args
      ∧ ensureFmt intoS true fmt args = .ok () := by
  intro α E β into cond e intoS fmt args rest
  exact ⟨rfl, rfl, rfl, rfl, rfl, rfl, rfl, rfl⟩

/-- C5: `bail(expr)` unconditionally produces the early return
`Err(convert(expr))` (any continuation is skipped); the format-string form
equals `bail` applied to the formatted string; with the ambient message
conversion the resulting error displays the message, and concretely
`bail("bad \x7b\x7d", 42)` yields an error displaying `"bad 42"`. -/
theorem bail_returns_converted_error :
    ∀ (α E T β : Type) (into : α → E) (e : α) (intoS : String → E)
      (fmt : String) (args : List String) (ctx : CaptureCtx) (s : String)
      (rest : PUnit → Except E β),
      (bail into e : Except E T) = .error (into e)
      ∧ (bail into e : Except E PUnit).bind rest = .error (into e)
      ∧ (bailFmt intoS fmt args : Except E T) = bail intoS (formatStr fmt args)
      ∧ msgSig.display (errorFromString ctx s).kind = s
      ∧ (bailFmt (errorFromString ctx) "bad \x7b\x7d" ["42"]
          : Except (FError MsgKind) PUnit)
        = .error (errorFromString ctx "bad 42")
      ∧ msgSig.display (errorFromString ctx "bad 42").kind = "bad 42" := by
  intro α E T β into e intoS fmt args ctx s rest
  have hfmt : formatStr "bad \x7b\x7d" ["42"] = "bad 42" := by decide
  refine ⟨rfl, rfl, rfl, rfl, ?_, rfl⟩
  show Except.error (errorFromString ctx (formatStr "bad \x7b\x7d" ["42"])) = _
  rw [hfmt]

/-- A concrete foreign error carrying an extractable backtrace. -/
def sampleForeign : DynError :=
  .mk "io error" "io error display" none (some (some ⟨3, "io bt"⟩))

/-- C3: `State::new` first attempts to extract a backtrace from the
predecessor and reuses it exactly when one can be extracted — the fresh
capture is then unused — and captures a fresh backtrace only when no
predecessor backtrace can be extracted; in particular chaining on top of a
freshly constructed error keeps that error's capsule, so one propagating
failure never causes two captures. -/
theorem state_new_reuses_predecessor_backtrace :
    ∀ (ctx : CaptureCtx) (e : DynError),
      (∀ b : InternalBacktrace, e.extractedBacktrace = some b →
        State.new ctx e = ⟨some e, b⟩)
      ∧ (e.extractedBacktrace = none →
        State.new ctx e = ⟨some e, InternalBacktrace.new ctx⟩)
      ∧ (∀ (K : Type) (sig : KindSig K) (ctx₁ : CaptureCtx) (k : K)
          (f : Unit → K),
        ((FError.from_kind ctx₁ k).chain_err sig ctx f).state.backtrace
          = InternalBacktrace.new ctx₁) := by
  intro ctx e
  refine ⟨?_, ?_, ?_⟩
  · intro b hb
    simp [State.new, hb]
  · intro hb
    simp [State.new, hb]
  · intro K sig ctx₁ k f
    rfl

/-- Witness for C3: a foreign error with an extractable backtrace is
reused verbatim, a leaf without one forces a fresh capture, and a
`chain_err` on a fresh error keeps that error's own capsule. -/
theorem state_new_reuses_predecessor_backtrace_witness :
    State.new sampleCtx sampleForeign
      = ⟨some sampleForeign, some ⟨3, "io bt"⟩⟩
    ∧ State.new sampleCtx sampleLeaf
      = ⟨some sampleLeaf, InternalBacktrace.new sampleCtx⟩
    ∧ ((FError.from_kind sampleCtx (MsgKind.msg "k1")).chain_err msgSig
        sampleCtx (fun _ => MsgKind.msg "k2")).state.backtrace
      = InternalBacktrace.new sampleCtx := by
  refine ⟨?_, ?_, ?_⟩
  · exact (state_new_reuses_predecessor_backtrace sampleCtx sampleForeign).1
      (some ⟨3, "io bt"⟩) rfl
  · exact (state_new_reuses_predecessor_backtrace sampleCtx sampleLeaf).2.1 rfl
  · exact (state_new_reuses_predecessor_backtrace sampleCtx sampleLeaf).2.2
      MsgKind msgSig sampleCtx (MsgKind.msg "k1") (fun _ => MsgKind.msg "k2")

/-- C7: converting a linked family's error adds no chain entry — the chain
length is preserved, and a freshly constructed linked error converts to an
error whose iterator has length 1 — whereas converting a foreign error
always adds one chain entry: its iterator has the foreign error at
position 1 and length one more than the foreign error's own chain (2 when
the foreign error has no cause). -/
theorem link_vs_foreign_chain_length :
    ∀ (KA KB : Type) (sigA : KindSig KA) (sigB : KindSig KB)
      (wrap : KB → KA) (b : FError KB) (ctxB ctx : CaptureCtx) (kb : KB)
      (ka : KA) (f : DynError),
      ((linkFrom wrap b).iterSeq sigA).length
        = (b.iterSeq sigB).length
      ∧ ((linkFrom wrap
          (FError.from_kind ctxB kb)).iterSeq sigA).length = 1
      ∧ ((foreignFrom ctx ka f).iterSeq sigA).length
        = (iterList (some f)).length + 1
      ∧ ((foreignFrom ctx ka f).iterSeq sigA).get? 1 = some f
      ∧ (f.cause = none →
        ((foreignFrom ctx ka f).iterSeq sigA).length = 2) := by
  intro KA KB sigA sigB wrap b ctxB ctx kb ka f
  refine ⟨?_, ?_, ?_, ?_, ?_⟩
  · rw [FError.iterSeq_length, FError.iterSeq_length]
    rfl
  · rw [FError.iterSeq_length]
    simp [linkFrom, FError.from_kind, State.default, iterList]
  · rw [FError.iterSeq_length]
    rfl
  · have hE : ((foreignFrom ctx ka f).iterSeq sigA).get? 1
        = (iterList (some f)).get? 0 := by
      rw [FError.iterSeq_eq]
      rfl
    rw [hE]
    cases f with
    | mk d s c bb =>
      rw [iterList_some]
      rfl
  · intro hc
    cases f with
    | mk d s c bb =>
      have : c = none := hc
      subst this
      rw [FError.iterSeq_length]
      show (iterList (some (DynError.mk d s none bb))).length + 1 = 2
      rw [iterList_some]
      simp [iterList]

/-- Witness for C7: a cause-free foreign error converts to an error whose
iterator has exactly two elements. -/
theorem link_vs_foreign_chain_length_witness :
    ((foreignFrom sampleCtx (MsgKind.msg "wrap") sampleLeaf).iterSeq
      msgSig).length = 2 :=
  (link_vs_foreign_chain_length MsgKind MsgKind msgSig msgSig id
    (FError.from_kind sampleCtx (.msg "b")) sampleCtx sampleCtx
    (.msg "b") (.msg "wrap") sampleLeaf).2.2.2.2 rfl

/-- C8: `chain_err` behaves as `with_chain(self, closure())`: the new
error's iterator starts with an element displaying and describing the
produced kind, its second element is the original error, and dropping the
first element recovers the original error's whole chain — the original is
never lost. -/
theorem chain_err_prepends_kind_keeps_original :
    ∀ (K : Type) (sig : KindSig K) (ctx : CaptureCtx) (e : FError K)
      (f : Unit → K),
      e.chain_err sig ctx f = FError.with_chain ctx (e.toDyn sig) (f ())
      ∧ (((e.chain_err sig ctx f).iterSeq sig).get? 0).map DynError.display
        = some (sig.display (f ()))
      ∧ (((e.chain_err sig ctx f).iterSeq sig).get? 0).map
          DynError.description = some (sig.description (f ()))
      ∧ ((e.chain_err sig ctx f).iterSeq sig).get? 1 = some (e.toDyn sig)
      ∧ ((e.chain_err sig ctx f).iterSeq sig).drop 1 = e.iterSeq sig := by
  intro K sig ctx e f
  have hseq : (e.chain_err sig ctx f).iterSeq sig
      = (e.chain_err sig ctx f).toDyn sig
        :: iterList (some (e.toDyn sig)) := by
    rw [FError.iterSeq_eq]
    rfl
  have hE : iterList (some (e.toDyn sig))
      = e.toDyn sig :: iterList e.state.next_error :=
    FError.iterSeq_eq sig e
  refine ⟨rfl, ?_, ?_, ?_, ?_⟩
  · rw [hseq]
    rfl
  · rw [hseq]
    rfl
  · rw [hseq]
    show (iterList (some (e.toDyn sig))).get? 0 = some (e.toDyn sig)
    rw [hE]
    rfl
  · rw [hseq]
    show iterList (some (e.toDyn sig)) = e.iterSeq sig
    rfl

/-- C2: the rendering of `display_chain` is the `Error:` line for the
error itself, then one `Caused by:` line per element of the chain after
the first, in traversal order (outermost first, root cause last, no
reordering, deduplication or omission), then the formatted backtrace
exactly when one is present; on a 3-deep chain with backtraces disabled it
renders exactly the three lines and nothing more, and a backtrace is
appended exactly when present. -/
theorem display_chain_renders_error_then_causes :
    ∀ (K : Type) (sig : KindSig K) (e : FError K) (snap : Backtrace)
      (d1 d2 d3 : String),
      e.displayChain sig
        = "Error: " ++ sig.display e.kind ++ "\n"
          ++ causedByLines (iterList e.state.next_error)
          ++ (match e.backtraceAcc with
            | some b => b.fmtDebug ++ "\n"
            | none => "")
      ∧ (((FError.from_kind ⟨false, snap⟩ (MsgKind.msg d3)).chain_err msgSig
          ⟨false, snap⟩ (fun _ => .msg d2)).chain_err msgSig ⟨false, snap⟩
          (fun _ => .msg d1)).displayChain msgSig
        = "Error: " ++ d1 ++ "\n" ++ "Caused by: " ++ d2 ++ "\n"
          ++ "Caused by: " ++ d3 ++ "\n"
      ∧ (FError.from_kind ⟨true, snap⟩ (MsgKind.msg d1)).displayChain msgSig
        = "Error: " ++ d1 ++ "\n" ++ snap.fmtDebug ++ "\n"
      ∧ (FError.from_kind ⟨false, snap⟩ (MsgKind.msg d1)).displayChain msgSig
        = "Error: " ++ d1 ++ "\n" := by
  intro K sig e snap d1 d2 d3
  have hm : ∀ s : String,
      ("\n" : String) ++ ("Caused by: " ++ s) = "\nCaused by: " ++ s := by
    intro s
    rw [← String.append_assoc]
    have hlit : ("\n" : String) ++ "Caused by: " = "\nCaused by: " := by
      decide
    rw [hlit]
  refine ⟨?_, ?_, ?_, ?_⟩
  · have hdrop : (e.iterSeq sig).drop 1 = iterList e.state.next_error := by
      rw [FError.iterSeq_eq]
      rfl
    unfold FError.displayChain
    rw [hdrop]
  · simp [FError.displayChain, FError.chain_err, FError.with_chain,
      FError.from_kind, State.new, State.default, FError.toDyn,
      FError.iterSeq, iterList, InternalBacktrace.new, FError.backtraceAcc,
      causedByLines, DynError.display, DynError.extractedBacktrace, msgSig,
      MsgKind.displayOf, MsgKind.descriptionOf, String.append_assoc,
      String.append_empty, hm]
  · simp [FError.displayChain, FError.from_kind, State.default,
      FError.toDyn, FError.iterSeq, iterList, InternalBacktrace.new,
      FError.backtraceAcc, causedByLines, msgSig, MsgKind.displayOf,
      String.append_assoc, String.append_empty]
  · simp [FError.displayChain, FError.from_kind, State.default,
      FError.toDyn, FError.iterSeq, iterList, InternalBacktrace.new,
      FError.backtraceAcc, causedByLines, msgSig, MsgKind.displayOf,
      String.append_assoc, String.append_empty]

/-- C10: every chunk `display_chain` emits — the `Error:` line, each
`Caused by:` line, and the backtrace block when present — is terminated by
a newline: the whole rendering is the concatenation of a nonempty list of
newline-terminated lines, so it always ends with a trailing newline. -/
theorem display_chain_lines_newline_terminated :
    ∀ (K : Type) (sig : KindSig K) (e : FError K),
      ∃ ls : List String, ls ≠ [] ∧ e.displayChain sig = linesJoin ls := by
  intro K sig e
  refine ⟨("Error: " ++ sig.display e.kind)
      :: ((((e.iterSeq sig).drop 1).map fun c => "Caused by: " ++ c.display)
        ++ (match e.backtraceAcc with
          | some b => [b.fmtDebug]
          | none => [])), by simp, ?_⟩
  unfold FError.displayChain
  rw [causedByLines_eq_linesJoin]
  cases hbt : e.backtraceAcc with
  | some b =>
    simp [hbt, linesJoin, linesJoin_append, String.append_assoc,
      String.append_empty]
  | none =>
    simp [hbt, linesJoin, linesJoin_append, String.append_assoc,
      String.append_empty]

end ErrorChain
